import Mathlib

/-!
Verification of the Scoring & Rule Evaluation Engine of an
executive-assessment backend (routers/calculo_scores.py,
routers/motor_reglas.py, core/ords_client.py).

Numbers exchanged with the record store (scores, weights, option base
values, condition thresholds) are modelled as rationals; record
dictionaries become structures whose fields mirror the keys the code
reads, with `Option` where the code uses `.get` with a default.
-/

namespace MetaBridge

/-! ## Condition operator (motor_reglas.evaluar_operador) -/

/-- Body of `evaluar_operador` before its blanket `except` handler: the
`BETWEEN` branch with a missing `valor2` raises
`ValueError("Operador BETWEEN requiere valor2")`, every unknown operator
string returns `False`. -/
def evaluar_operador_nucleo (valor : ℚ) (operador : String) (valor1 : ℚ)
    (valor2 : Option ℚ) : Except String Bool :=
  if operador = ">=" then .ok (decide (valor ≥ valor1))
  else if operador = "<=" then .ok (decide (valor ≤ valor1))
  else if operador = ">" then .ok (decide (valor > valor1))
  else if operador = "<" then .ok (decide (valor < valor1))
  else if operador = "=" then .ok (decide (|valor - valor1| < 1/100))
  else if operador = "BETWEEN" then
    match valor2 with
    | none => .error (r"Operador BETWEEN requiere valor2")
    | some v2 => .ok (decide (valor1 ≤ valor ∧ valor ≤ v2))
  else .ok false

/-- `evaluar_operador`: the whole body runs inside `try ... except
Exception: return False`, so the internally raised `ValueError` is
swallowed and the condition evaluates to `False`. -/
def evaluar_operador (valor : ℚ) (operador : String) (valor1 : ℚ)
    (valor2 : Option ℚ) : Bool :=
  match evaluar_operador_nucleo valor operador valor1 valor2 with
  | .ok b => b
  | .error _ => false

/-! ## Rule conditions (motor_reglas.evaluar_condiciones) -/

/-- One row of CE_CONDICION_REGLA as read by the rule engine.  Fields the
code reads through `.get` with a default are `Option`s. -/
structure Condicion where
  orden : Option Int
  id_capacidad : Option Nat
  id_dimension : Option Nat
  operador : String
  valor1 : ℚ
  valor2 : Option ℚ
  conector : Option String
  metrica : Option String
  grupo : Option Nat
  deriving DecidableEq, Repr

/-- The score map built by `obtener_scores_evaluacion`:
`(id_capacidad, id_dimension) -> score`. -/
abbrev Scores : Type := List ((Nat × Nat) × ℚ)

def buscarScore : List ((Nat × Nat) × ℚ) → Nat → Nat → Option ℚ
  | [], _, _ => none
  | (k, v) :: rest, a, b => if k = (a, b) then some v else buscarScore rest a b

/-- `scores.get((id_cap, id_dim), 0)`: a pair absent from the score map
is read as score 0. -/
def condScore (scores : Scores) (c : Condicion) : ℚ :=
  match c.id_capacidad, c.id_dimension with
  | some a, some b => (buscarScore scores a b).getD 0
  | _, _ => 0

/-- `cumple = evaluar_operador(score_actual, operador, valor1, valor2)`. -/
def condCumple (scores : Scores) (c : Condicion) : Bool :=
  evaluar_operador (condScore scores c) c.operador c.valor1 c.valor2

/-- One entry of `detalle_condiciones` in the evaluation trace. -/
structure CondDetalle where
  orden : Option Int
  capacidad : Option Nat
  dimension : Option Nat
  metrica : String
  operador : String
  valor_esperado : ℚ
  valor_actual : ℚ
  cumple : Bool
  conector : Option String
  deriving DecidableEq, Repr

/-- Trace entry built for the condition at position `i` of its group
(`"conector": conector if i > 0 else None`, where `conector` is already
defaulted to `"AND"`). -/
def condDetalle (scores : Scores) (c : Condicion) (i : Nat) : CondDetalle :=
  { orden := c.orden
    capacidad := c.id_capacidad
    dimension := c.id_dimension
    metrica := c.metrica.getD (r"SCORE_CAP_DIM")
    operador := c.operador
    valor_esperado := c.valor1
    valor_actual := condScore scores c
    cumple := condCumple scores c
    conector := if i = 0 then none else some (c.conector.getD (r"AND")) }

/-- Fold step for a non-first condition in a group: `AND` conjoins, `OR`
disjoins, any other connector string leaves the running result
untouched. -/
def grupoPaso (scores : Scores) (b : Bool) (c : Condicion) : Bool :=
  let cumple := condCumple scores c
  let conector := c.conector.getD (r"AND")
  if conector = "AND" then b && cumple
  else if conector = "OR" then b || cumple
  else b

/-- Tail of the group loop, carrying the running boolean and the
position index used by the trace. -/
def evaluarGrupoAux (scores : Scores) (b : Bool) (i : Nat) :
    List Condicion → Bool × List CondDetalle
  | [] => (b, [])
  | c :: rest =>
    let r := evaluarGrupoAux scores (grupoPaso scores b c) (i + 1) rest
    (r.1, condDetalle scores c i :: r.2)

/-- Evaluation of one group: the first condition's outcome seeds the
running boolean (its connector is ignored), the rest fold in via
`grupoPaso`.  A group is never empty in the code (groups arise from a
non-empty partition); the `[]` case is dead and yields `false`. -/
def evaluarGrupo (scores : Scores) : List Condicion → Bool × List CondDetalle
  | [] => (false, [])
  | c :: rest =>
    let r := evaluarGrupoAux scores (condCumple scores c) 1 rest
    (r.1, condDetalle scores c 0 :: r.2)

/-- Append a condition to the group keyed `g`, or open a new group at
the end (Python dict insertion order of first occurrence). -/
def agregarAGrupo : List (Nat × List Condicion) → Nat → Condicion →
    List (Nat × List Condicion)
  | [], g, c => [(g, [c])]
  | (g', cs) :: rest, g, c =>
    if g' = g then (g', cs ++ [c]) :: rest
    else (g', cs) :: agregarAGrupo rest g c

/-- `grupos`: partition of the conditions by `cond.get("grupo", 1)`,
preserving relative order inside a group and first-occurrence order of
the groups themselves. -/
def agrupar (conds : List Condicion) : List (Nat × List Condicion) :=
  conds.foldl (fun acc c => agregarAGrupo acc (c.grupo.getD 1) c) []

/-- Per-group entry of the trace. -/
structure GrupoDetalle where
  grupo_id : Nat
  cumple : Bool
  condiciones : List CondDetalle
  deriving DecidableEq, Repr

/-- The dictionary returned as evaluation detail: either
`{"error": "No hay condiciones"}` or the structured trace. -/
inductive EvalDetalle where
  | sinCondiciones
  | resultado (num_grupos : Nat) (grupos_cumplidos : Nat)
      (logica_global : String) (detalle_grupos : List GrupoDetalle)
  deriving DecidableEq, Repr

/-- `evaluar_condiciones`: empty list → `(False, error detail)`;
otherwise evaluate every group and OR the group results. -/
def evaluar_condiciones (condiciones : List Condicion) (scores : Scores) :
    Bool × EvalDetalle :=
  if condiciones = [] then (false, .sinCondiciones)
  else
    let grupos := agrupar condiciones
    let evaluados := grupos.map (fun g => (g.1, evaluarGrupo scores g.2))
    let resultado_final := evaluados.any (fun g => g.2.1)
    (resultado_final,
      .resultado grupos.length
        (evaluados.countP (fun g => g.2.1))
        (r"OR entre grupos")
        (evaluados.map (fun g =>
          { grupo_id := g.1, cumple := g.2.1, condiciones := g.2.2 })))

/-! ## Score computation (calculo_scores.py) -/

/-- `round(x, 2)`.  Both the program embedding and the specification-side
arithmetic use this same two-decimal rounding, so no statement below
depends on the tie-breaking convention. -/
def round2 (q : ℚ) : ℚ := round (q * 100) / 100

/-- One row of CE_RESPUESTA; `links` models the truthiness of
`item.get("links")` used by the cleaning filter in
`obtener_respuestas_evaluacion`. -/
structure Respuesta where
  id_pregunta : Nat
  id_opcion : Nat
  links : Bool
  deriving DecidableEq, Repr

/-- The fields of CE_PREGUNTA read by the score loop. -/
structure Pregunta where
  id_capacidad : Nat
  id_dimension : Nat
  codigo : String
  deriving DecidableEq, Repr

/-- The field of CE_OPCION_RESPUESTA read by the score loop. -/
structure Opcion where
  valor_base : ℚ
  deriving DecidableEq, Repr

/-- The field of CE_PONDERACION read by the score loop. -/
structure Ponderacion where
  peso : ℚ
  deriving DecidableEq, Repr

/-- The record-store reads performed by `calcular_score_especifico` for
one evaluation, on the success path of every individual fetch:
`id_version` is the evaluation's `id_version` field, `respuestas` the
raw items of `/ce_respuesta/?id_evaluacion=...`, and the three maps
model `obtener_pregunta`, `obtener_opcion` and `obtener_ponderacion`
(the latter returning `items[0] if items else None`). -/
structure ScoreEnv where
  id_evaluacion : Nat
  id_version : Option Nat
  respuestas : List Respuesta
  pregunta : Nat → Pregunta
  opcion : Nat → Opcion
  ponderacion : Nat → Nat → Option Ponderacion

/-- `peso = ponderacion.get("peso", 1.0) if ponderacion else 1.0`:
a question with no weight row gets effective weight 1. -/
def pesoEfectivo : Option Ponderacion → ℚ
  | some p => p.peso
  | none => 1

/-- One entry of `respuestas_procesadas` in the response detail. -/
structure RespuestaProcesada where
  id_pregunta : Nat
  codigo_pregunta : String
  valor_base : ℚ
  peso : ℚ
  contribucion : ℚ
  deriving DecidableEq, Repr

/-- The capability/dimension membership test of the loop:
`pregunta.get("id_capacidad") == id_capacidad and
pregunta.get("id_dimension") == id_dimension`. -/
def coincide (env : ScoreEnv) (id_capacidad id_dimension : Nat)
    (r : Respuesta) : Bool :=
  (env.pregunta r.id_pregunta).id_capacidad = id_capacidad &&
  (env.pregunta r.id_pregunta).id_dimension = id_dimension

/-- The processed-answer entry appended for a matching answer. -/
def procesadaDe (env : ScoreEnv) (id_version : Nat) (r : Respuesta) :
    RespuestaProcesada :=
  let valor_base := (env.opcion r.id_opcion).valor_base
  let peso := pesoEfectivo (env.ponderacion id_version r.id_pregunta)
  { id_pregunta := r.id_pregunta
    codigo_pregunta := (env.pregunta r.id_pregunta).codigo
    valor_base := valor_base
    peso := peso
    contribucion := valor_base * peso }

/-- One iteration of the answer loop: skip non-matching answers,
otherwise accumulate `numerador += valor_base * peso`,
`denominador += peso` and append the processed entry. -/
def scorePaso (env : ScoreEnv) (id_capacidad id_dimension id_version : Nat)
    (acc : ℚ × ℚ × List RespuestaProcesada) (r : Respuesta) :
    ℚ × ℚ × List RespuestaProcesada :=
  if coincide env id_capacidad id_dimension r then
    let valor_base := (env.opcion r.id_opcion).valor_base
    let peso := pesoEfectivo (env.ponderacion id_version r.id_pregunta)
    (acc.1 + valor_base * peso, acc.2.1 + peso,
      acc.2.2 ++ [procesadaDe env id_version r])
  else acc

/-- HTTP-shaped errors raised by the endpoints
(`HTTPException(status_code, detail)`). -/
structure HttpError where
  status : Nat
  detail : String
  deriving DecidableEq, Repr

def msgSinVersion : String :=
  "La evaluación no tiene versión de metodología asociada"

def msgSinRespuestas (id_evaluacion : Nat) : String :=
  s!"No hay respuestas para la evaluación {id_evaluacion}"

def msgSinDatosCapDim (id_capacidad id_dimension : Nat) : String :=
  s!"No hay respuestas para capacidad {id_capacidad} / dimensión {id_dimension}"

/-- An error of `calcular_score_especifico` is a no-data failure when it
carries status 400 with one of the two no-answers details (as opposed to
the missing-version 400). -/
def esNoData (env : ScoreEnv) (id_capacidad id_dimension : Nat)
    (e : HttpError) : Prop :=
  e.status = 400 ∧
    (e.detail = msgSinRespuestas env.id_evaluacion ∨
     e.detail = msgSinDatosCapDim id_capacidad id_dimension)

instance (env : ScoreEnv) (c d : Nat) (e : HttpError) :
    Decidable (esNoData env c d e) := by
  unfold esNoData; infer_instance

/-- Steps 1–5 of `calcular_score_especifico`: resolve the version
(`if not id_version` also fires on a literal 0), clean and check the
answers, run the accumulation loop, and guard the zero denominator.
Returns `(numerador, denominador, respuestas_procesadas)`. -/
def calcular_nucleo (env : ScoreEnv) (id_capacidad id_dimension : Nat) :
    Except HttpError (ℚ × ℚ × List RespuestaProcesada) :=
  match env.id_version with
  | none => .error ⟨400, msgSinVersion⟩
  | some id_version =>
    if id_version = 0 then .error ⟨400, msgSinVersion⟩
    else
      let respuestas := env.respuestas.filter (fun r => r.links)
      if respuestas = [] then
        .error ⟨400, msgSinRespuestas env.id_evaluacion⟩
      else
        let acc := respuestas.foldl
          (scorePaso env id_capacidad id_dimension id_version) (0, 0, [])
        if acc.2.1 = 0 then
          .error ⟨400, msgSinDatosCapDim id_capacidad id_dimension⟩
        else .ok acc

/-- The `detalle` dictionary of the response. -/
structure ScoreDetalle where
  formula : String
  numerador : ℚ
  denominador : ℚ
  respuestas : List RespuestaProcesada
  deriving DecidableEq, Repr

/-- `ScoreCalculadoResponse` as returned by the endpoint. -/
structure ScoreCalculadoResponse where
  id_evaluacion : Nat
  id_capacidad : Nat
  id_dimension : Nat
  score : ℚ
  num_respuestas : Nat
  peso_total : ℚ
  detalle : ScoreDetalle
  deriving DecidableEq, Repr

def mkScoreResponse (id_evaluacion id_capacidad id_dimension : Nat)
    (numerador denominador : ℚ) (procesadas : List RespuestaProcesada) :
    ScoreCalculadoResponse :=
  { id_evaluacion := id_evaluacion
    id_capacidad := id_capacidad
    id_dimension := id_dimension
    score := round2 (numerador / denominador)
    num_respuestas := procesadas.length
    peso_total := round2 denominador
    detalle :=
      { formula := "Σ(VALOR_BASE × PESO) / Σ(PESO)"
        numerador := round2 numerador
        denominador := round2 denominador
        respuestas := procesadas } }

/-! ### ScoreCapDim persistence (guardar_score) -/

/-- One row of CE_SCORE_CAP_DIM. -/
structure ScoreRow where
  id_score : Nat
  id_evaluacion : Nat
  id_capacidad : Nat
  id_dimension : Nat
  score : ℚ
  deriving DecidableEq, Repr

/-- The CE_SCORE_CAP_DIM collection: its rows plus the next id the store
would assign on insert. -/
structure ScoreStore where
  rows : List ScoreRow
  nextId : Nat
  deriving DecidableEq, Repr

/-- The exact-key filter of the existence query in `guardar_score`. -/
def claveScore (id_evaluacion id_capacidad id_dimension : Nat)
    (r : ScoreRow) : Bool :=
  r.id_evaluacion = id_evaluacion && r.id_capacidad = id_capacidad &&
  r.id_dimension = id_dimension

/-- `guardar_score`: query the row for the exact key; if found, PUT the
payload (score rounded to 2 decimals) onto `items[0]`, else POST a new
row. -/
def guardar_score (id_evaluacion id_capacidad id_dimension : Nat)
    (score : ℚ) (st : ScoreStore) : ScoreStore :=
  let items := st.rows.filter (claveScore id_evaluacion id_capacidad id_dimension)
  match items with
  | [] =>
    { rows := st.rows ++
        [⟨st.nextId, id_evaluacion, id_capacidad, id_dimension, round2 score⟩]
      nextId := st.nextId + 1 }
  | r :: _ =>
    { rows := st.rows.map (fun x =>
        if x.id_score = r.id_score then
          ⟨r.id_score, id_evaluacion, id_capacidad, id_dimension, round2 score⟩
        else x)
      nextId := st.nextId }

/-- `calcular_score_especifico`: compute the score and, on success,
persist it via `guardar_score` before returning the response; any
HTTPException raised earlier leaves the store untouched. -/
def calcular_score_especifico (env : ScoreEnv)
    (id_capacidad id_dimension : Nat) (st : ScoreStore) :
    Except HttpError ScoreCalculadoResponse × ScoreStore :=
  match calcular_nucleo env id_capacidad id_dimension with
  | .error e => (.error e, st)
  | .ok (numerador, denominador, procesadas) =>
    let score := numerador / denominador
    (.ok (mkScoreResponse env.id_evaluacion id_capacidad id_dimension
        numerador denominador procesadas),
      guardar_score env.id_evaluacion id_capacidad id_dimension score st)

/-! ### Specification-side arithmetic for the weighted mean -/

/-- The answers of the evaluation that match the requested
capability/dimension pair (after the `links` cleaning filter). -/
def respuestasCoinciden (env : ScoreEnv) (id_capacidad id_dimension : Nat) :
    List Respuesta :=
  (env.respuestas.filter (fun r => r.links)).filter
    (coincide env id_capacidad id_dimension)

/-- Effective weight of one answer's question. -/
def pesoDe (env : ScoreEnv) (id_version : Nat) (r : Respuesta) : ℚ :=
  pesoEfectivo (env.ponderacion id_version r.id_pregunta)

/-- Σw over the matching answers. -/
def sumaPesos (env : ScoreEnv) (id_version id_capacidad id_dimension : Nat) : ℚ :=
  ((respuestasCoinciden env id_capacidad id_dimension).map
    (pesoDe env id_version)).sum

/-- Σ(value_base · w) over the matching answers. -/
def sumaValores (env : ScoreEnv) (id_version id_capacidad id_dimension : Nat) : ℚ :=
  ((respuestasCoinciden env id_capacidad id_dimension).map
    (fun r => (env.opcion r.id_opcion).valor_base * pesoDe env id_version r)).sum

/-! ### Bulk computation (calcular_todos_scores) -/

/-- Fields of CE_CAPACIDAD read by the bulk loop. -/
structure Capacidad where
  id_capacidad : Nat
  codigo : String
  deriving DecidableEq, Repr

/-- Fields of CE_DIMENSION read by the bulk loop. -/
structure Dimension where
  id_dimension : Nat
  codigo : String
  deriving DecidableEq, Repr

/-- One entry of the `errores` list collected for a skipped pair. -/
structure ErrorEntry where
  capacidad : String
  dimension : String
  error : String
  deriving DecidableEq, Repr

/-- `CalculoCompletaResponse` as returned by the bulk endpoint. -/
structure CalculoCompletaResponse where
  id_evaluacion : Nat
  scores_calculados : Nat
  scores_detalle : List ScoreCalculadoResponse
  deriving DecidableEq, Repr

/-- The capability × dimension iteration order of the nested loops. -/
def paresCapDim (capacidades : List Capacidad) (dimensiones : List Dimension) :
    List (Capacidad × Dimension) :=
  capacidades.flatMap (fun c => dimensiones.map (fun d => (c, d)))

/-- One iteration of the bulk loop: an `HTTPException` with status 400 is
recorded in `errores` and the loop continues; any other status is
re-raised and aborts the batch. -/
def todosPaso (env : ScoreEnv)
    (acc : List ScoreCalculadoResponse × List ErrorEntry × ScoreStore)
    (par : Capacidad × Dimension) :
    Except HttpError
      (List ScoreCalculadoResponse × List ErrorEntry × ScoreStore) :=
  match calcular_score_especifico env par.1.id_capacidad par.2.id_dimension
      acc.2.2 with
  | (.ok resp, st) => .ok (acc.1 ++ [resp], acc.2.1, st)
  | (.error e, st) =>
    if e.status = 400 then
      .ok (acc.1, acc.2.1 ++
        [{ capacidad := par.1.codigo, dimension := par.2.codigo,
           error := e.detail }], st)
    else .error e

/-- `calcular_todos_scores`: iterate every active capability × active
dimension pair, calling `calcular_score_especifico` for each; the
collected `errores` list (logged by the code) is returned alongside the
response and the store so the skip behaviour is observable. -/
def calcular_todos_scores (capacidades : List Capacidad)
    (dimensiones : List Dimension) (env : ScoreEnv) (st : ScoreStore) :
    Except HttpError
      (CalculoCompletaResponse × List ErrorEntry × ScoreStore) :=
  match (paresCapDim capacidades dimensiones).foldlM (todosPaso env)
      ([], [], st) with
  | .error e => .error e
  | .ok (scores, errores, st) =>
    .ok ({ id_evaluacion := env.id_evaluacion
           scores_calculados := scores.length
           scores_detalle := scores }, errores, st)

/-! ### RuleResult persistence (guardar_resultado_regla) -/

/-- One row of CE_RESULTADO_REGLA; `detalle_json` holds the structured
trace (the `json.dumps` serialisation is abstracted away). -/
structure ResultadoReglaRow where
  id_resultado_regla : Nat
  id_evaluacion : Nat
  id_regla : Nat
  fl_cumple : String
  valor_numerico : Option ℚ
  detalle_json : EvalDetalle
  deriving DecidableEq, Repr

/-- The CE_RESULTADO_REGLA collection. -/
structure ResultadoStore where
  rows : List ResultadoReglaRow
  nextId : Nat
  deriving DecidableEq, Repr

/-- The exact-key filter of the existence query in
`guardar_resultado_regla`. -/
def claveResultado (id_evaluacion id_regla : Nat) (r : ResultadoReglaRow) :
    Bool :=
  r.id_evaluacion = id_evaluacion && r.id_regla = id_regla

/-- `guardar_resultado_regla`: query the row for the exact
(evaluation, rule) key; if found, PUT the payload onto `items[0]`, else
POST a new row. -/
def guardar_resultado_regla (id_evaluacion id_regla : Nat)
    (fl_cumple : String) (valor_numerico : Option ℚ)
    (detalle_json : EvalDetalle) (st : ResultadoStore) : ResultadoStore :=
  let items := st.rows.filter (claveResultado id_evaluacion id_regla)
  match items with
  | [] =>
    { rows := st.rows ++
        [⟨st.nextId, id_evaluacion, id_regla, fl_cumple, valor_numerico,
          detalle_json⟩]
      nextId := st.nextId + 1 }
  | r :: _ =>
    { rows := st.rows.map (fun x =>
        if x.id_resultado_regla = r.id_resultado_regla then
          ⟨r.id_resultado_regla, id_evaluacion, id_regla, fl_cumple,
            valor_numerico, detalle_json⟩
        else x)
      nextId := st.nextId }

/-! ### Record-store adapter and fetch wrappers (ords_client,
motor_reglas, calculo_scores) -/

/-- Outcome of one raw store round-trip: either a connectivity failure
(`httpx.RequestError`) or a response with a status code and a decoded
body. -/
inductive OrdsOutcome (α : Type) where
  | connError (msg : String)
  | response (status : Nat) (body : α)
  deriving DecidableEq, Repr

/-- `ords_request`: a connectivity failure is re-raised, a 4xx/5xx
status raises `HTTPStatusError("ORDS error <status>")`, any other
response yields its body. -/
def ords_request {α : Type} (o : OrdsOutcome α) : Except String α :=
  match o with
  | .connError msg => .error msg
  | .response status body =>
    if 400 ≤ status then .error s!"ORDS error {status}" else .ok body

/-- Fields of CE_EVALUACION read by the engine. -/
structure Evaluacion where
  id_version : Option Nat
  deriving DecidableEq, Repr

/-- `obtener_respuestas_evaluacion`: store failures are logged and
re-raised; on success the items are cleaned by the `links` filter. -/
def obtener_respuestas_evaluacion (o : OrdsOutcome (List Respuesta)) :
    Except String (List Respuesta) :=
  match ords_request o with
  | .error e => .error e
  | .ok items => .ok (items.filter (fun r => r.links))

/-- `obtener_pregunta`: store failures are logged and re-raised. -/
def obtener_pregunta (o : OrdsOutcome Pregunta) : Except String Pregunta :=
  ords_request o

/-- `obtener_opcion`: store failures are logged and re-raised. -/
def obtener_opcion (o : OrdsOutcome Opcion) : Except String Opcion :=
  ords_request o

/-- `obtener_evaluacion`: store failures are logged and re-raised. -/
def obtener_evaluacion (o : OrdsOutcome Evaluacion) :
    Except String Evaluacion :=
  ords_request o

/-- `obtener_ponderacion`: any store failure is caught, logged as a
warning and replaced by `None` (which downstream becomes effective
weight 1.0); on success it returns `items[0] if items else None`. -/
def obtener_ponderacion (o : OrdsOutcome (List Ponderacion)) :
    Option Ponderacion :=
  match ords_request o with
  | .error _ => none
  | .ok items => items.head?

/-- Dict insertion with overwrite, preserving first-insertion order. -/
def dictInsert (l : List ((Nat × Nat) × ℚ)) (k : Nat × Nat) (v : ℚ) :
    List ((Nat × Nat) × ℚ) :=
  if l.any (fun p => p.1 = k) then
    l.map (fun p => if p.1 = k then (k, v) else p)
  else l ++ [(k, v)]

/-- `obtener_scores_evaluacion`: any store failure is caught, logged
and replaced by an empty score map; on success the rows are keyed by
(id_capacidad, id_dimension) with `score.get("score", 0)`. -/
def obtener_scores_evaluacion (o : OrdsOutcome (List ScoreRow)) :
    List ((Nat × Nat) × ℚ) :=
  match ords_request o with
  | .error _ => []
  | .ok rows =>
    rows.foldl (fun d r => dictInsert d (r.id_capacidad, r.id_dimension) r.score) []

/-- Fields of CE_REGLA read by the engine. -/
structure Regla where
  id_regla : Nat
  codigo : String
  nombre : String
  deriving DecidableEq, Repr

/-- `obtener_reglas_activas`: any store failure is caught, logged and
replaced by an empty rule list. -/
def obtener_reglas_activas (o : OrdsOutcome (List Regla)) : List Regla :=
  match ords_request o with
  | .error _ => []
  | .ok items => items

/-- Stable ascending insertion by `cond.get("orden", 0)`. -/
def insertarOrdenado (c : Condicion) : List Condicion → List Condicion
  | [] => [c]
  | x :: xs =>
    if c.orden.getD 0 < x.orden.getD 0 then c :: x :: xs
    else x :: insertarOrdenado c xs

/-- `sorted(condiciones, key=lambda x: x.get("orden", 0))`. -/
def ordenarPorOrden : List Condicion → List Condicion
  | [] => []
  | c :: rest => insertarOrdenado c (ordenarPorOrden rest)

/-- `obtener_condiciones_regla`: any store failure is caught, logged and
replaced by an empty condition list; on success the conditions are
sorted by `orden`. -/
def obtener_condiciones_regla (o : OrdsOutcome (List Condicion)) :
    List Condicion :=
  match ords_request o with
  | .error _ => []
  | .ok items => ordenarPorOrden items

/-! ## Specification-side restatement of the group fold

`grupoSatisfechoSpec` follows the specification's words for the group
verdict: the first condition's outcome seeds the running boolean and each
subsequent condition combines via its own connector, `AND` meaning
logical and, `OR` meaning logical or.  The specification assigns no
meaning to other connector strings, so outside `{AND, OR}` this
definition and the program may differ; the refinement theorem assumes
every connector is one of the two. -/

def grupoSatisfechoSpec (scores : Scores) : List Condicion → Bool
  | [] => false
  | c :: rest =>
    rest.foldl
      (fun b c2 =>
        if c2.conector = some (r"AND") then b && condCumple scores c2
        else b || condCumple scores c2)
      (condCumple scores c)

/-- Specification-side rule verdict: OR across the groups of the
partition. -/
def reglaSatisfechaSpec (condiciones : List Condicion) (scores : Scores) :
    Bool :=
  (agrupar condiciones).any (fun g => grupoSatisfechoSpec scores g.2)

/-! ## Concrete record-store snapshots used to evaluate the
definitions on closed inputs -/

/-- An evaluation with a single answer whose question sits in
capability 1 / dimension 1, option base value 8, and a weight row with
`peso = 0` for every question. -/
def envPesoCero : ScoreEnv :=
  { id_evaluacion := 7
    id_version := some 1
    respuestas := [⟨5, 9, true⟩]
    pregunta := fun _ => ⟨1, 1, r"Q1"⟩
    opcion := fun _ => ⟨8⟩
    ponderacion := fun _ _ => some ⟨0⟩ }

/-- The same single-answer evaluation with no weight rows at all. -/
def envUno : ScoreEnv :=
  { id_evaluacion := 7
    id_version := some 1
    respuestas := [⟨5, 9, true⟩]
    pregunta := fun _ => ⟨1, 1, r"Q1"⟩
    opcion := fun _ => ⟨8⟩
    ponderacion := fun _ _ => none }

/-- The end-to-end scenario of the specification: two answered
questions in (capability 1, dimension 1), Q1 with base value 8 and
weight 2, Q2 with base value 4 and weight 1. -/
def envDos : ScoreEnv :=
  { id_evaluacion := 7
    id_version := some 1
    respuestas := [⟨1, 11, true⟩, ⟨2, 12, true⟩]
    pregunta := fun p => if p = 1 then ⟨1, 1, r"Q1"⟩ else ⟨1, 1, r"Q2"⟩
    opcion := fun o => if o = 11 then ⟨8⟩ else ⟨4⟩
    ponderacion := fun _ p => if p = 1 then some ⟨2⟩ else some ⟨1⟩ }

/-- An evaluation whose `id_version` field is null, with one answer. -/
def envSinVersion : ScoreEnv :=
  { id_evaluacion := 7
    id_version := none
    respuestas := [⟨5, 9, true⟩]
    pregunta := fun _ => ⟨1, 1, r"Q1"⟩
    opcion := fun _ => ⟨8⟩
    ponderacion := fun _ _ => none }

/-! ### Rule-engine orchestrator (ejecutar_motor_reglas) -/

/-- One entry of the engine's per-rule response. -/
structure ResultadoReglaResponse where
  id_regla : Nat
  codigo_regla : String
  nombre_regla : String
  fl_cumple : String
  num_condiciones : Nat
  condiciones_cumplidas : Nat
  detalle_json : EvalDetalle
  deriving DecidableEq, Repr

/-- `MotorResultadoResponse` as returned by the engine endpoint. -/
structure MotorResultadoResponse where
  id_evaluacion : Nat
  total_reglas : Nat
  reglas_cumplidas : Nat
  reglas_no_cumplidas : Nat
  resultados : List ResultadoReglaResponse
  deriving DecidableEq, Repr

/-- `detalle.get("grupos_cumplidos", 0)`. -/
def gruposCumplidos : EvalDetalle → Nat
  | .sinCondiciones => 0
  | .resultado _ gc _ _ => gc

/-- The record-store reads performed by `ejecutar_motor_reglas` for one
evaluation, on the success path: the evaluation's version, the score
map, the active rules of the version, and each rule's ordered
conditions. -/
structure MotorEnv where
  id_evaluacion : Nat
  id_version : Option Nat
  scores : Scores
  reglas : List Regla
  condiciones : Nat → List Condicion

def msgSinVersionMotor : String :=
  "La evaluación no tiene versión de metodología"

def msgSinScores : String :=
  "No hay scores calculados para esta evaluación. Ejecuta primero el cálculo de scores."

/-- The `fl_cumple` flag the engine persists for one rule. -/
def flDe (env : MotorEnv) (regla : Regla) : String :=
  if (evaluar_condiciones (env.condiciones regla.id_regla) env.scores).1
  then r"Y" else r"N"

/-- The trace detail the engine persists for one rule. -/
def djDe (env : MotorEnv) (regla : Regla) : EvalDetalle :=
  (evaluar_condiciones (env.condiciones regla.id_regla) env.scores).2

/-- One iteration of the rule loop: a rule with zero conditions is
skipped (`continue`), otherwise its conditions are evaluated, the
result is upserted, and the response entry and satisfied count are
accumulated. -/
def motorPaso (env : MotorEnv)
    (acc : List ResultadoReglaResponse × Nat × ResultadoStore)
    (regla : Regla) :
    List ResultadoReglaResponse × Nat × ResultadoStore :=
  let condiciones := env.condiciones regla.id_regla
  if condiciones = [] then acc
  else
    let ev := evaluar_condiciones condiciones env.scores
    (acc.1 ++ [⟨regla.id_regla, regla.codigo, regla.nombre, flDe env regla,
        condiciones.length, gruposCumplidos ev.2, ev.2⟩],
      acc.2.1 + (if ev.1 then 1 else 0),
      guardar_resultado_regla env.id_evaluacion regla.id_regla
        (flDe env regla) none ev.2 acc.2.2)

/-- Store effect of one rule-loop iteration in isolation. -/
def motorPasoStore (env : MotorEnv) (s : ResultadoStore) (regla : Regla) :
    ResultadoStore :=
  if env.condiciones regla.id_regla = [] then s
  else
    guardar_resultado_regla env.id_evaluacion regla.id_regla
      (flDe env regla) none (djDe env regla) s

/-- `ejecutar_motor_reglas`: resolve the version (`if not id_version`
also fires on a literal 0), require a non-empty score map, return a
zero summary when there are no active rules, otherwise run the rule
loop and assemble the summary. -/
def ejecutar_motor_reglas (env : MotorEnv) (st : ResultadoStore) :
    Except HttpError (MotorResultadoResponse × ResultadoStore) :=
  match env.id_version with
  | none => .error ⟨400, msgSinVersionMotor⟩
  | some v =>
    if v = 0 then .error ⟨400, msgSinVersionMotor⟩
    else if env.scores = [] then .error ⟨400, msgSinScores⟩
    else if env.reglas = [] then
      .ok (⟨env.id_evaluacion, 0, 0, 0, []⟩, st)
    else
      let r := env.reglas.foldl (motorPaso env) ([], 0, st)
      .ok (⟨env.id_evaluacion, r.1.length, r.2.1, r.1.length - r.2.1, r.1⟩,
        r.2.2)

/-- Condition with an unknown connector, used to evaluate the
connector fold on a closed input. -/
def condXor : Condicion :=
  ⟨none, some 1, some 1, r">=", 5, none, some (r"XOR"), none, none⟩

/-- Condition observing (capability 1, dimension 1) with operator `>=`
and threshold 7, `AND` connector. -/
def condGE7 : Condicion :=
  ⟨some 1, some 1, some 1, r">=", 7, none, some (r"AND"), none, some 1⟩

/-- Condition observing (capability 1, dimension 2) with operator `>=`
and threshold 5, `OR` connector. -/
def condGE5 : Condicion :=
  ⟨some 2, some 1, some 2, r">=", 5, none, some (r"OR"), none, some 1⟩

/-- A two-entry score map for the closed rule-engine evaluations. -/
def scoresEjemplo : Scores := [((1, 1), 8), ((1, 2), 3)]

/-- A single active rule. -/
def reglaUno : Regla := ⟨3, r"R1", r"Regla 1"⟩

/-- A condition whose operator is outside the defined set, keeping the
closed engine run free of rational arithmetic. -/
def condNoop : Condicion :=
  ⟨some 1, some 1, some 1, r"NOOP", 5, none, some (r"AND"), none, some 1⟩

/-- Engine environment with one rule of one condition. -/
def envMotorUno : MotorEnv :=
  ⟨7, some 1, scoresEjemplo, [reglaUno], fun _ => [condNoop]⟩

/-- The trace the engine records for `condNoop` against
`scoresEjemplo`. -/
def detalleNoop : EvalDetalle :=
  .resultado 1 0 (r"OR entre grupos")
    [⟨1, false, [⟨some 1, some 1, some 1, r"SCORE_CAP_DIM", r"NOOP", 5, 8,
      false, none⟩]⟩]

/-- The summary of running `envMotorUno` once. -/
def respNoop : MotorResultadoResponse :=
  ⟨7, 1, 0, 1, [⟨3, r"R1", r"Regla 1", r"N", 1, 0, detalleNoop⟩]⟩

/-- The result store after running `envMotorUno` once from empty. -/
def stM1Noop : ResultadoStore := ⟨[⟨1, 7, 3, r"N", none, detalleNoop⟩], 2⟩

/-! # Theorems -/

/-! ## Helper lemmas -/

theorem any_ext {α : Type} (l : List α) (f g : α → Bool)
    (h : ∀ a ∈ l, f a = g a) : l.any f = l.any g := by
  induction l with
  | nil => rfl
  | cons x xs ih =>
    simp only [List.any_cons, h x (by simp), ih (fun a ha => h a (by simp [ha]))]

theorem any_map_helper {α β : Type} (l : List α) (f : α → β) (p : β → Bool) :
    (l.map f).any p = l.any (fun a => p (f a)) := by
  induction l with
  | nil => rfl
  | cons x xs ih => simp [ih]

theorem evaluarGrupoAux_fst (scores : Scores) (l : List Condicion) :
    ∀ (b : Bool) (i : Nat),
      (evaluarGrupoAux scores b i l).1 = l.foldl (grupoPaso scores) b := by
  induction l with
  | nil => intro b i; rfl
  | cons c rest ih =>
    intro b i
    simp only [evaluarGrupoAux, List.foldl_cons, ih]

theorem evaluarGrupoAux_append (scores : Scores) (c : Condicion)
    (l : List Condicion) :
    ∀ (b : Bool) (i : Nat),
      evaluarGrupoAux scores b i (l ++ [c]) =
        (grupoPaso scores (evaluarGrupoAux scores b i l).1 c,
          (evaluarGrupoAux scores b i l).2 ++
            [condDetalle scores c (i + l.length)]) := by
  induction l with
  | nil => intro b i; simp [evaluarGrupoAux]
  | cons x xs ih =>
    intro b i
    have harith : i + (xs.length + 1) = i + 1 + xs.length := by omega
    simp only [List.cons_append, evaluarGrupoAux, List.append_eq, ih,
      List.length_cons, harith]

theorem agregarAGrupo_mem (P : Condicion → Prop) :
    ∀ (acc : List (Nat × List Condicion)) (g : Nat) (c0 : Condicion),
      (∀ p ∈ acc, ∀ c ∈ p.2, P c) → P c0 →
      ∀ p ∈ agregarAGrupo acc g c0, ∀ c ∈ p.2, P c := by
  intro acc
  induction acc with
  | nil =>
    intro g c0 _ hc0 p hp c hc
    simp [agregarAGrupo] at hp
    subst hp
    simp at hc
    subst hc
    exact hc0
  | cons q rest ih =>
    intro g c0 hacc hc0 p hp c hc
    obtain ⟨g', cs⟩ := q
    simp only [agregarAGrupo] at hp
    by_cases hg : g' = g
    · simp only [hg, if_true, List.mem_cons] at hp
      rcases hp with hp | hp
      · subst hp
        simp at hc
        rcases hc with hc | hc
        · exact hacc (g, cs) (by simp [← hg]) c hc
        · subst hc; exact hc0
      · exact hacc p (by simp [hp]) c hc
    · simp only [hg, if_false, List.mem_cons] at hp
      rcases hp with hp | hp
      · subst hp
        exact hacc (g', cs) (by simp) c hc
      · exact ih g c0 (fun p' hp' => hacc p' (by simp [hp'])) hc0 p hp c hc

theorem agrupar_mem (P : Condicion → Prop) (conds : List Condicion)
    (h : ∀ c ∈ conds, P c) :
    ∀ p ∈ agrupar conds, ∀ c ∈ p.2, P c := by
  suffices hgen : ∀ (l : List Condicion) (acc : List (Nat × List Condicion)),
      (∀ c ∈ l, P c) → (∀ p ∈ acc, ∀ c ∈ p.2, P c) →
      ∀ p ∈ l.foldl (fun a c => agregarAGrupo a (c.grupo.getD 1) c) acc,
        ∀ c ∈ p.2, P c by
    exact hgen conds [] h (by simp)
  intro l
  induction l with
  | nil => intro acc _ hacc; exact hacc
  | cons c0 rest ih =>
    intro acc hl hacc
    simp only [List.foldl_cons]
    exact ih _ (fun c hc => hl c (by simp [hc]))
      (agregarAGrupo_mem P acc (c0.grupo.getD 1) c0 hacc (hl c0 (by simp)))

theorem grupo_fold_spec (scores : Scores) (cs : List Condicion)
    (h : ∀ c ∈ cs, c.conector = some (r"AND") ∨ c.conector = some (r"OR")) :
    (evaluarGrupo scores cs).1 = grupoSatisfechoSpec scores cs := by
  cases cs with
  | nil => rfl
  | cons c rest =>
    simp only [evaluarGrupo, grupoSatisfechoSpec,
      evaluarGrupoAux_fst scores rest (condCumple scores c) 1]
    apply List.foldl_ext
    intro b c2 hc2
    rcases h c2 (by simp [hc2]) with hco | hco <;>
      simp [grupoPaso, hco]

/-! ## Claims -/

/-- C5: the condition operator returns `v ≥ a` for `">="`, `v ≤ a` for
`"<="`, `v > a` for `">"`, `v < a` for `"<"`, `|v − a| < 0.01` for
`"="`, inclusive `a ≤ v ≤ b` for `"BETWEEN"` with `b` present, and
`false` for every operator string outside this set. -/
theorem operador_tabla (v a b : ℚ) (b2 : Option ℚ) :
    (evaluar_operador v (r">=") a b2 = decide (v ≥ a))
    ∧ (evaluar_operador v (r"<=") a b2 = decide (v ≤ a))
    ∧ (evaluar_operador v (r">") a b2 = decide (v > a))
    ∧ (evaluar_operador v (r"<") a b2 = decide (v < a))
    ∧ (evaluar_operador v (r"=") a b2 = decide (|v - a| < 1/100))
    ∧ (evaluar_operador v (r"BETWEEN") a (some b) = decide (a ≤ v ∧ v ≤ b))
    ∧ (∀ op : String,
        op ∉ ([r">=", r"<=", r">", r"<", r"=", r"BETWEEN"] : List String) →
        evaluar_operador v op a b2 = false) := by
  refine ⟨?_, ?_, ?_, ?_, ?_, ?_, ?_⟩
  · simp [evaluar_operador, evaluar_operador_nucleo]
  · simp [evaluar_operador, evaluar_operador_nucleo]
  · simp [evaluar_operador, evaluar_operador_nucleo]
  · simp [evaluar_operador, evaluar_operador_nucleo]
  · simp [evaluar_operador, evaluar_operador_nucleo]
  · simp [evaluar_operador, evaluar_operador_nucleo]
  · intro op hop
    simp only [List.mem_cons, List.mem_singleton, not_or] at hop
    obtain ⟨h1, h2, h3, h4, h5, h6⟩ := hop
    simp [evaluar_operador, evaluar_operador_nucleo, h1, h2, h3, h4, h5, h6]

/-- C5 witness: the table evaluated at concrete inputs, including an
unknown operator. -/
theorem operador_tabla_witness :
    evaluar_operador 5 (r">=") 5 none = decide ((5:ℚ) ≥ 5)
    ∧ evaluar_operador 5 (r"XOR") 5 none = false :=
  ⟨(operador_tabla 5 5 0 none).1,
    (operador_tabla 5 5 0 none).2.2.2.2.2.2 (r"XOR") (by decide)⟩

/-- C4: evaluating `BETWEEN` with `value2` absent does NOT surface an
error: the `ValueError` raised inside `evaluar_operador` is swallowed by
the function's own `except` handler and the condition silently
evaluates to `false`.  The first conjunct evaluates the code at the
failing input; the second shows the internally raised error; the third
generalises the silent-false behaviour. -/
theorem between_sin_valor2 :
    evaluar_operador 5 (r"BETWEEN") 1 none = false
    ∧ evaluar_operador_nucleo 5 (r"BETWEEN") 1 none =
        .error (r"Operador BETWEEN requiere valor2")
    ∧ ∀ (v a : ℚ), evaluar_operador v (r"BETWEEN") a none = false := by
  refine ⟨rfl, rfl, ?_⟩
  intro v a
  simp [evaluar_operador, evaluar_operador_nucleo]

/-- C10: a non-first condition whose connector is neither `"AND"` nor
`"OR"` leaves the group's running boolean unchanged — appending it to a
group changes neither the group verdict nor any earlier trace entry —
yet its own trace entry, with its outcome and connector, is still
recorded. -/
theorem conector_desconocido (scores : Scores) (c : Condicion) (s : String)
    (hc : c.conector = some s) (h1 : s ≠ "AND") (h2 : s ≠ "OR") :
    (∀ b : Bool, grupoPaso scores b c = b)
    ∧ (∀ (c0 : Condicion) (rest : List Condicion),
        (evaluarGrupo scores (c0 :: (rest ++ [c]))).1 =
          (evaluarGrupo scores (c0 :: rest)).1
        ∧ (evaluarGrupo scores (c0 :: (rest ++ [c]))).2 =
            (evaluarGrupo scores (c0 :: rest)).2 ++
              [condDetalle scores c (1 + rest.length)]
        ∧ (condDetalle scores c (1 + rest.length)).cumple =
            condCumple scores c
        ∧ (condDetalle scores c (1 + rest.length)).conector = some s) := by
  have hpaso : ∀ b : Bool, grupoPaso scores b c = b := by
    intro b
    simp [grupoPaso, hc, h1, h2]
  refine ⟨hpaso, ?_⟩
  intro c0 rest
  have happ := evaluarGrupoAux_append scores c rest (condCumple scores c0) 1
  refine ⟨?_, ?_, rfl, ?_⟩
  · simp only [evaluarGrupo, happ, hpaso]
  · simp only [evaluarGrupo, happ, List.cons_append]
  · have : 1 + rest.length ≠ 0 := by omega
    simp [condDetalle, this, hc]

/-- C10 witness: the fold step at a concrete `XOR` condition, and the
trace entry recorded for it at the end of a concrete group. -/
theorem conector_desconocido_witness :
    grupoPaso scoresEjemplo true condXor = true
    ∧ (evaluarGrupo scoresEjemplo (condGE7 :: ([condGE5] ++ [condXor]))).2 =
        (evaluarGrupo scoresEjemplo (condGE7 :: [condGE5])).2 ++
          [condDetalle scoresEjemplo condXor (1 + 1)]
    ∧ (condDetalle scoresEjemplo condXor (1 + 1)).conector = some (r"XOR") :=
  have h := conector_desconocido scoresEjemplo condXor (r"XOR") rfl
    (by decide) (by decide)
  ⟨h.1 true, by
    have h2 := h.2 condGE7 [condGE5]
    simpa using h2.2.1, (h.2 condGE7 [condGE5]).2.2.2⟩

/-- C2: for conditions whose connectors all lie in `{AND, OR}` the rule
verdict of `evaluar_condiciones` is exactly the specification's: true
iff at least one group of the partition is satisfied (OR across
groups), where a group's verdict is the left-associative fold that
starts from its first condition's outcome and combines each subsequent
condition via its own connector, scoring an absent (capability,
dimension) pair as 0; the empty condition list yields false. -/
theorem evaluar_condiciones_spec (condiciones : List Condicion)
    (scores : Scores)
    (h : ∀ c ∈ condiciones,
        c.conector = some (r"AND") ∨ c.conector = some (r"OR")) :
    (evaluar_condiciones condiciones scores).1 =
      reglaSatisfechaSpec condiciones scores
    ∧ (evaluar_condiciones ([] : List Condicion) scores).1 = false
    ∧ (∀ (c : Condicion) (a b : Nat), c.id_capacidad = some a →
        c.id_dimension = some b → buscarScore scores a b = none →
        condScore scores c = 0) := by
  refine ⟨?_, ?_, ?_⟩
  · by_cases hc : condiciones = []
    · subst hc
      simp [evaluar_condiciones, reglaSatisfechaSpec, agrupar]
    · simp only [evaluar_condiciones, hc, if_false, reglaSatisfechaSpec]
      rw [any_map_helper]
      apply any_ext
      intro p hp
      exact grupo_fold_spec scores p.2
        (agrupar_mem _ condiciones h p hp)
  · rfl
  · intro c a b ha hb hn
    simp [condScore, ha, hb, hn]

/-- C2 witness: a one-group rule with an `AND`-chained second condition,
evaluated on a concrete score map. -/
theorem evaluar_condiciones_spec_witness :
    (evaluar_condiciones [condGE7, condGE5] scoresEjemplo).1 =
      reglaSatisfechaSpec [condGE7, condGE5] scoresEjemplo :=
  (evaluar_condiciones_spec [condGE7, condGE5] scoresEjemplo
    (by decide)).1

/-- C8 counterexample: a record-store failure is NOT propagated
unchanged everywhere the claim asserts: while loading the score map or
the active rules the failure is replaced by an empty result, and while
fetching a question's weight it is replaced by `None` (effective weight
1.0). -/
theorem store_error_sustituido :
    obtener_scores_evaluacion (.connError (r"connection lost")) = []
    ∧ obtener_reglas_activas (.connError (r"connection lost")) = []
    ∧ obtener_ponderacion (.connError (r"connection lost")) = none
    ∧ obtener_condiciones_regla (.connError (r"connection lost")) = [] :=
  ⟨rfl, rfl, rfl, rfl⟩

/-- C8 amended: `ords_request` turns connectivity failures and 4xx/5xx
responses into errors with no retry; the answer, question, option and
evaluation fetchers re-raise them, but `obtener_ponderacion` substitutes
`None` (weight 1.0), and `obtener_scores_evaluacion`,
`obtener_reglas_activas`, `obtener_condiciones_regla` substitute empty
results instead of propagating. -/
theorem store_error_propagacion (msg : String) (status : Nat)
    (bodyE : Evaluacion)
    (oR : OrdsOutcome (List Respuesta)) (oP : OrdsOutcome Pregunta)
    (oO : OrdsOutcome Opcion) (oE : OrdsOutcome Evaluacion)
    (oPo : OrdsOutcome (List Ponderacion)) (oS : OrdsOutcome (List ScoreRow))
    (oRe : OrdsOutcome (List Regla)) (oC : OrdsOutcome (List Condicion))
    (hR : ords_request oR = .error msg) (hP : ords_request oP = .error msg)
    (hO : ords_request oO = .error msg) (hE : ords_request oE = .error msg)
    (hPo : ords_request oPo = .error msg) (hS : ords_request oS = .error msg)
    (hRe : ords_request oRe = .error msg) (hC : ords_request oC = .error msg)
    (hstatus : 400 ≤ status) :
    ords_request (OrdsOutcome.connError (α := Evaluacion) msg) = .error msg
    ∧ ords_request (OrdsOutcome.response status bodyE) =
        .error s!"ORDS error {status}"
    ∧ obtener_respuestas_evaluacion oR = .error msg
    ∧ obtener_pregunta oP = .error msg
    ∧ obtener_opcion oO = .error msg
    ∧ obtener_evaluacion oE = .error msg
    ∧ obtener_ponderacion oPo = none
    ∧ obtener_scores_evaluacion oS = []
    ∧ obtener_reglas_activas oRe = []
    ∧ obtener_condiciones_regla oC = [] := by
  refine ⟨rfl, ?_, ?_, hP, hO, hE, ?_, ?_, ?_, ?_⟩
  · simp [ords_request, hstatus]
  · simp [obtener_respuestas_evaluacion, hR]
  · simp [obtener_ponderacion, hPo]
  · simp [obtener_scores_evaluacion, hS]
  · simp [obtener_reglas_activas, hRe]
  · simp [obtener_condiciones_regla, hC]

/-- C8 amended witness: all eight fetchers on a concrete connectivity
failure, and a concrete 500 response. -/
theorem store_error_propagacion_witness :
    obtener_respuestas_evaluacion (.connError (r"down")) = .error (r"down")
    ∧ obtener_pregunta (.connError (r"down")) = .error (r"down")
    ∧ obtener_opcion (.connError (r"down")) = .error (r"down")
    ∧ obtener_evaluacion (.connError (r"down")) = .error (r"down")
    ∧ obtener_ponderacion (.connError (r"down")) = none
    ∧ obtener_scores_evaluacion (.connError (r"down")) = []
    ∧ obtener_reglas_activas (.connError (r"down")) = []
    ∧ obtener_condiciones_regla (.connError (r"down")) = [] :=
  have h := store_error_propagacion (r"down") 500 ⟨none⟩
    (.connError (r"down")) (.connError (r"down")) (.connError (r"down"))
    (.connError (r"down")) (.connError (r"down")) (.connError (r"down"))
    (.connError (r"down")) (.connError (r"down"))
    rfl rfl rfl rfl rfl rfl rfl rfl (by decide)
  ⟨h.2.2.1, h.2.2.2.1, h.2.2.2.2.1, h.2.2.2.2.2.1, h.2.2.2.2.2.2.1,
    h.2.2.2.2.2.2.2.1, h.2.2.2.2.2.2.2.2.1, h.2.2.2.2.2.2.2.2.2⟩

theorem map_id_of {α : Type} (l : List α) (f : α → α)
    (h : ∀ a ∈ l, f a = a) : l.map f = l := by
  induction l with
  | nil => rfl
  | cons x xs ih => simp [h x (by simp), ih (fun a ha => h a (by simp [ha]))]

theorem scorePaso_foldl (env : ScoreEnv) (cap dim ver : Nat)
    (l : List Respuesta) :
    ∀ (n d : ℚ) (p : List RespuestaProcesada),
      l.foldl (scorePaso env cap dim ver) (n, d, p) =
        (n + ((l.filter (coincide env cap dim)).map
            (fun r => (env.opcion r.id_opcion).valor_base *
              pesoDe env ver r)).sum,
          d + ((l.filter (coincide env cap dim)).map (pesoDe env ver)).sum,
          p ++ (l.filter (coincide env cap dim)).map (procesadaDe env ver)) := by
  induction l with
  | nil => intro n d p; simp
  | cons r rest ih =>
    intro n d p
    by_cases hr : coincide env cap dim r
    · simp only [List.foldl_cons, scorePaso, hr, if_true,
        List.filter_cons_of_pos, List.map_cons, List.sum_cons, ih,
        Prod.mk.injEq, pesoDe]
      refine ⟨by ring, by ring, by simp⟩
    · have hr' : coincide env cap dim r = false := by
        simpa using hr
      simp only [List.foldl_cons, scorePaso, hr', Bool.false_eq_true, if_false,
        ih, List.filter_cons, Prod.mk.injEq]

theorem calcular_nucleo_eq (env : ScoreEnv) (cap dim ver : Nat)
    (hv : env.id_version = some ver) (h0 : ver ≠ 0)
    (hne : env.respuestas.filter (fun r => r.links) ≠ []) :
    calcular_nucleo env cap dim =
      if sumaPesos env ver cap dim = 0 then
        .error ⟨400, msgSinDatosCapDim cap dim⟩
      else
        .ok (sumaValores env ver cap dim, sumaPesos env ver cap dim,
          (respuestasCoinciden env cap dim).map (procesadaDe env ver)) := by
  simp only [calcular_nucleo, hv, h0, if_false, hne,
    scorePaso_foldl env cap dim ver, zero_add, List.nil_append]
  rfl

/-- C1: whenever the evaluation has a methodology version and the total
weight Σw of the answers matching the requested capability/dimension is
positive, `calcular_score_especifico` returns the weighted mean
`round(Σ(value_base · weight) / Σw, 2)`, where both sums range exactly
over the matching answers. -/
theorem score_media_ponderada (env : ScoreEnv) (cap dim ver : Nat)
    (st : ScoreStore) (hv : env.id_version = some ver) (h0 : ver ≠ 0)
    (hw : 0 < sumaPesos env ver cap dim) :
    Except.map ScoreCalculadoResponse.score
        (calcular_score_especifico env cap dim st).1 =
      .ok (round2 (sumaValores env ver cap dim / sumaPesos env ver cap dim)) := by
  have hnz : sumaPesos env ver cap dim ≠ 0 := ne_of_gt hw
  have hne : env.respuestas.filter (fun r => r.links) ≠ [] := by
    intro hnil
    have hz : sumaPesos env ver cap dim = 0 := by
      simp [sumaPesos, respuestasCoinciden, hnil]
    exact hnz hz
  simp only [calcular_score_especifico,
    calcular_nucleo_eq env cap dim ver hv h0 hne, hnz, if_false,
    mkScoreResponse, Except.map]

/-- C1 witness: the specification's end-to-end scenario — Q1 with base
value 8, weight 2 and Q2 with base value 4, weight 1 yield
(8·2 + 4·1)/(2 + 1) rounded to 6.67. -/
theorem score_media_ponderada_witness :
    Except.map ScoreCalculadoResponse.score
        (calcular_score_especifico envDos 1 1 ⟨[], 1⟩).1 =
      .ok (round2 (sumaValores envDos 1 1 1 / sumaPesos envDos 1 1 1))
    ∧ round2 (sumaValores envDos 1 1 1 / sumaPesos envDos 1 1 1) = 667/100 := by
  have hsp : sumaPesos envDos 1 1 1 = 3 := by
    norm_num [sumaPesos, respuestasCoinciden, envDos, coincide, pesoDe,
      pesoEfectivo]
  have hsv : sumaValores envDos 1 1 1 = 20 := by
    norm_num [sumaValores, respuestasCoinciden, envDos, coincide, pesoDe,
      pesoEfectivo]
  refine ⟨score_media_ponderada envDos 1 1 1 ⟨[], 1⟩ rfl (by decide) ?_, ?_⟩
  · rw [hsp]; norm_num
  · rw [hsp, hsv, round2, round_eq]; norm_num

/-- C3 amended: with a version present, `calcular_score_especifico`
fails with a no-data error exactly when the weight accumulator Σw over
the matching answers equals 0 (in particular whenever zero answers
match, but also when matching answers carry weights summing to 0); on
every error path the store is untouched, and on every success path the
divisor Σw is non-zero. -/
theorem score_sin_datos (env : ScoreEnv) (cap dim ver : Nat)
    (st : ScoreStore) (hv : env.id_version = some ver) (h0 : ver ≠ 0) :
    ((∃ e, (calcular_score_especifico env cap dim st).1 = .error e
        ∧ esNoData env cap dim e) ↔ sumaPesos env ver cap dim = 0)
    ∧ (∀ e, (calcular_score_especifico env cap dim st).1 = .error e →
        (calcular_score_especifico env cap dim st).2 = st)
    ∧ (∀ resp, (calcular_score_especifico env cap dim st).1 = .ok resp →
        sumaPesos env ver cap dim ≠ 0)
    ∧ (respuestasCoinciden env cap dim = [] →
        sumaPesos env ver cap dim = 0) := by
  have hvacio : respuestasCoinciden env cap dim = [] →
      sumaPesos env ver cap dim = 0 := by
    intro hrc
    simp [sumaPesos, hrc]
  by_cases hne : env.respuestas.filter (fun r => r.links) = []
  · have hz : sumaPesos env ver cap dim = 0 := by
      simp [sumaPesos, respuestasCoinciden, hne]
    have hres : calcular_nucleo env cap dim =
        .error ⟨400, msgSinRespuestas env.id_evaluacion⟩ := by
      simp [calcular_nucleo, hv, h0, hne]
    refine ⟨?_, ?_, ?_, hvacio⟩
    · constructor
      · intro _; exact hz
      · intro _
        refine ⟨⟨400, msgSinRespuestas env.id_evaluacion⟩, ?_, rfl, Or.inl rfl⟩
        simp [calcular_score_especifico, hres]
    · intro e _
      simp [calcular_score_especifico, hres]
    · intro resp hresp
      simp [calcular_score_especifico, hres] at hresp
  · have hnuc := calcular_nucleo_eq env cap dim ver hv h0 hne
    by_cases hz : sumaPesos env ver cap dim = 0
    · have hres : calcular_nucleo env cap dim =
          .error ⟨400, msgSinDatosCapDim cap dim⟩ := by
        rw [hnuc]; simp [hz]
      refine ⟨?_, ?_, ?_, hvacio⟩
      · constructor
        · intro _; exact hz
        · intro _
          refine ⟨⟨400, msgSinDatosCapDim cap dim⟩, ?_, rfl, Or.inr rfl⟩
          simp [calcular_score_especifico, hres]
      · intro e _
        simp [calcular_score_especifico, hres]
      · intro resp hresp
        simp [calcular_score_especifico, hres] at hresp
    · have hres : calcular_nucleo env cap dim =
          .ok (sumaValores env ver cap dim, sumaPesos env ver cap dim,
            (respuestasCoinciden env cap dim).map (procesadaDe env ver)) := by
        rw [hnuc]; simp [hz]
      refine ⟨?_, ?_, ?_, hvacio⟩
      · constructor
        · rintro ⟨e, he, -⟩
          simp [calcular_score_especifico, hres] at he
        · intro h; exact absurd h hz
      · intro e he
        simp [calcular_score_especifico, hres] at he
      · intro resp _
        exact hz

/-- C3 witness: a two-answer evaluation where only empty-weight data
would fail; here with positive weights the no-data error is absent. -/
theorem score_sin_datos_witness :
    ¬ sumaPesos envDos 1 1 1 = 0
    ∧ ¬ (∃ e, (calcular_score_especifico envDos 1 1 ⟨[], 1⟩).1 = .error e
        ∧ esNoData envDos 1 1 e) := by
  have h := score_sin_datos envDos 1 1 1 ⟨[], 1⟩ rfl (by decide)
  have hnz : ¬ sumaPesos envDos 1 1 1 = 0 := by
    norm_num [sumaPesos, respuestasCoinciden, envDos, coincide, pesoDe,
      pesoEfectivo]
  exact ⟨hnz, fun hex => hnz (h.1.mp hex)⟩

/-- C3 counterexample to the claim as stated: an evaluation with
exactly ONE answer matching (capability 1, dimension 1) — so "zero
answers match" is false — whose weight row carries `peso = 0`; the code
still fails with the no-data error because the weight accumulator is 0,
leaving the store untouched. -/
theorem score_sin_datos_contraejemplo :
    (respuestasCoinciden envPesoCero 1 1).length = 1
    ∧ (calcular_score_especifico envPesoCero 1 1 ⟨[], 1⟩).1 =
        .error ⟨400, msgSinDatosCapDim 1 1⟩
    ∧ (calcular_score_especifico envPesoCero 1 1 ⟨[], 1⟩).2 = ⟨[], 1⟩ := by
  have hne : envPesoCero.respuestas.filter (fun r => r.links) ≠ [] := by
    simp [envPesoCero]
  have hz : sumaPesos envPesoCero 1 1 1 = 0 := by
    simp [sumaPesos, respuestasCoinciden, envPesoCero, coincide, pesoDe,
      pesoEfectivo]
  have hres := calcular_nucleo_eq envPesoCero 1 1 1 rfl (by decide) hne
  rw [hz] at hres
  simp only [if_pos rfl] at hres
  refine ⟨by decide, ?_, ?_⟩ <;>
    simp [calcular_score_especifico, hres]

/-- C6: a question with no weight row gets effective weight 1.0 and
never causes a failure: an environment with no weight rows at all and
the same environment with an explicit weight-1.0 row for every question
produce identical results — same score, same error behaviour, same
persisted rows. -/
theorem peso_faltante_equivale (env : ScoreEnv) (cap dim : Nat)
    (st : ScoreStore) :
    calcular_score_especifico
        { env with ponderacion := fun _ _ => none } cap dim st =
      calcular_score_especifico
        { env with ponderacion := fun _ _ => some ⟨1⟩ } cap dim st
    ∧ pesoEfectivo none = 1
    ∧ pesoEfectivo none = pesoEfectivo (some ⟨1⟩) := by
  obtain ⟨ide, idv, resp, preg, opc, pond⟩ := env
  refine ⟨?_, rfl, rfl⟩
  have hnu : calcular_nucleo ⟨ide, idv, resp, preg, opc, fun _ _ => none⟩
        cap dim =
      calcular_nucleo ⟨ide, idv, resp, preg, opc, fun _ _ => some ⟨1⟩⟩
        cap dim := by
    cases idv with
    | none => rfl
    | some v =>
      by_cases h0 : v = 0
      · simp [calcular_nucleo, h0]
      · simp only [calcular_nucleo, h0, if_false]
        have hfold : ∀ (l : List Respuesta),
            l.foldl (scorePaso ⟨ide, some v, resp, preg, opc,
                fun _ _ => none⟩ cap dim v) ((0 : ℚ), (0 : ℚ),
                ([] : List RespuestaProcesada)) =
              l.foldl (scorePaso ⟨ide, some v, resp, preg, opc,
                fun _ _ => some ⟨1⟩⟩ cap dim v) (0, 0, []) := by
          intro l
          apply List.foldl_ext
          intro acc r _
          simp [scorePaso, coincide, procesadaDe, pesoEfectivo]
        rw [hfold]
  simp only [calcular_score_especifico, hnu]

/-- Upsert behaviour of `guardar_score` starting from a store holding no
row for the key and only fresh-id rows: the first call inserts exactly
one row for the key and a second identical call is the identity. -/
theorem guardar_score_upsert (e c d : Nat) (score : ℚ) (st : ScoreStore)
    (hkey : st.rows.countP (claveScore e c d) = 0)
    (hfresh : ∀ r ∈ st.rows, r.id_score < st.nextId) :
    (guardar_score e c d score st).rows =
        st.rows ++ [⟨st.nextId, e, c, d, round2 score⟩]
    ∧ (guardar_score e c d score st).rows.countP (claveScore e c d) = 1
    ∧ guardar_score e c d score (guardar_score e c d score st) =
        guardar_score e c d score st := by
  have hfil : st.rows.filter (claveScore e c d) = [] := by
    rw [← List.length_eq_zero, ← List.countP_eq_length_filter]
    exact hkey
  have hclave : claveScore e c d ⟨st.nextId, e, c, d, round2 score⟩ = true := by
    simp [claveScore]
  have hrows1 : (guardar_score e c d score st).rows =
      st.rows ++ [⟨st.nextId, e, c, d, round2 score⟩] := by
    simp [guardar_score, hfil]
  have hnext1 : (guardar_score e c d score st).nextId = st.nextId + 1 := by
    simp [guardar_score, hfil]
  refine ⟨hrows1, ?_, ?_⟩
  · rw [hrows1, List.countP_append, hkey]
    simp [hclave]
  · have hst1 : guardar_score e c d score st =
        ⟨st.rows ++ [⟨st.nextId, e, c, d, round2 score⟩], st.nextId + 1⟩ := by
      simp [guardar_score, hfil]
    rw [hst1]
    have hfilr : (st.rows ++
          [(⟨st.nextId, e, c, d, round2 score⟩ : ScoreRow)]).filter
        (claveScore e c d) = [⟨st.nextId, e, c, d, round2 score⟩] := by
      rw [List.filter_append, hfil]
      simp [hclave]
    simp only [guardar_score, hfilr]
    simp only [ScoreStore.mk.injEq, and_true]
    rw [List.map_append]
    have hid : st.rows.map
        (fun x => if x.id_score = st.nextId then
          (⟨st.nextId, e, c, d, round2 score⟩ : ScoreRow) else x) =
        st.rows := by
      apply map_id_of
      intro x hx
      have := hfresh x hx
      simp [Nat.ne_of_lt this]
    rw [hid]
    simp

/-- Upsert behaviour of `guardar_resultado_regla`, identical in shape to
that of `guardar_score`. -/
theorem guardar_resultado_upsert (e rg : Nat) (fl : String)
    (vn : Option ℚ) (dj : EvalDetalle) (st : ResultadoStore)
    (hkey : st.rows.countP (claveResultado e rg) = 0)
    (hfresh : ∀ r ∈ st.rows, r.id_resultado_regla < st.nextId) :
    (guardar_resultado_regla e rg fl vn dj st).rows =
        st.rows ++ [⟨st.nextId, e, rg, fl, vn, dj⟩]
    ∧ (guardar_resultado_regla e rg fl vn dj st).rows.countP
        (claveResultado e rg) = 1
    ∧ guardar_resultado_regla e rg fl vn dj
          (guardar_resultado_regla e rg fl vn dj st) =
        guardar_resultado_regla e rg fl vn dj st := by
  have hfil : st.rows.filter (claveResultado e rg) = [] := by
    rw [← List.length_eq_zero, ← List.countP_eq_length_filter]
    exact hkey
  have hclave : claveResultado e rg ⟨st.nextId, e, rg, fl, vn, dj⟩ = true := by
    simp [claveResultado]
  have hrows1 : (guardar_resultado_regla e rg fl vn dj st).rows =
      st.rows ++ [⟨st.nextId, e, rg, fl, vn, dj⟩] := by
    simp [guardar_resultado_regla, hfil]
  refine ⟨hrows1, ?_, ?_⟩
  · rw [hrows1, List.countP_append, hkey]
    simp [hclave]
  · have hst1 : guardar_resultado_regla e rg fl vn dj st =
        ⟨st.rows ++ [⟨st.nextId, e, rg, fl, vn, dj⟩], st.nextId + 1⟩ := by
      simp [guardar_resultado_regla, hfil]
    rw [hst1]
    have hfilr : (st.rows ++
          [(⟨st.nextId, e, rg, fl, vn, dj⟩ : ResultadoReglaRow)]).filter
        (claveResultado e rg) = [⟨st.nextId, e, rg, fl, vn, dj⟩] := by
      rw [List.filter_append, hfil]
      simp [hclave]
    simp only [guardar_resultado_regla, hfilr]
    simp only [ResultadoStore.mk.injEq, and_true]
    rw [List.map_append]
    have hid : st.rows.map
        (fun x => if x.id_resultado_regla = st.nextId then
          (⟨st.nextId, e, rg, fl, vn, dj⟩ : ResultadoReglaRow) else x) =
        st.rows := by
      apply map_id_of
      intro x hx
      have := hfresh x hx
      simp [Nat.ne_of_lt this]
    rw [hid]
    simp

theorem nodup_map_inj {α β : Type} {f : α → β} {l : List α}
    (h : (l.map f).Nodup) {x y : α} (hx : x ∈ l) (hy : y ∈ l)
    (hf : f x = f y) : x = y := by
  induction l with
  | nil => cases hx
  | cons a t ih =>
    rw [List.map_cons, List.nodup_cons] at h
    rcases List.mem_cons.mp hx with hx1 | hx1 <;>
      rcases List.mem_cons.mp hy with hy1 | hy1
    · rw [hx1, hy1]
    · exfalso
      apply h.1
      rw [hx1] at hf
      rw [hf]
      exact List.mem_map_of_mem f hy1
    · exfalso
      apply h.1
      rw [hy1] at hf
      rw [← hf]
      exact List.mem_map_of_mem f hx1
    · exact ih h.2 hx1 hy1

theorem filter_append_single_neg {α : Type} (p : α → Bool) (l : List α)
    (a : α) (h : p a = false) : (l ++ [a]).filter p = l.filter p := by
  simp [List.filter_append, h]

theorem guardar_resultado_insert (e rg : Nat) (fl : String) (vn : Option ℚ)
    (dj : EvalDetalle) (s : ResultadoStore)
    (hfil : s.rows.filter (claveResultado e rg) = []) :
    guardar_resultado_regla e rg fl vn dj s =
      ⟨s.rows ++ [⟨s.nextId, e, rg, fl, vn, dj⟩], s.nextId + 1⟩ := by
  simp [guardar_resultado_regla, hfil]

theorem guardar_resultado_noop (e rg : Nat) (fl : String) (vn : Option ℚ)
    (dj : EvalDetalle) (s : ResultadoStore) (i : Nat)
    (hfil : s.rows.filter (claveResultado e rg) = [⟨i, e, rg, fl, vn, dj⟩])
    (hid : ∀ x ∈ s.rows, x.id_resultado_regla = i →
      x = ⟨i, e, rg, fl, vn, dj⟩) :
    guardar_resultado_regla e rg fl vn dj s = s := by
  obtain ⟨rows, nid⟩ := s
  simp only [guardar_resultado_regla, hfil]
  simp only [ResultadoStore.mk.injEq, and_true]
  apply map_id_of
  intro x hx
  by_cases hxi : x.id_resultado_regla = i
  · rw [hid x hx hxi]
    simp
  · simp [hxi]

theorem motorPaso_store_eq (env : MotorEnv) (l : List Regla) :
    ∀ (a : List ResultadoReglaResponse) (b : Nat) (s : ResultadoStore),
      (l.foldl (motorPaso env) (a, b, s)).2.2 =
        l.foldl (motorPasoStore env) s := by
  induction l with
  | nil => intro a b s; rfl
  | cons regla rest ih =>
    intro a b s
    by_cases hc : env.condiciones regla.id_regla = []
    · simp only [List.foldl_cons, motorPaso, motorPasoStore, hc, if_true, ih]
    · simp only [List.foldl_cons, motorPaso, motorPasoStore, hc, if_false, ih,
        djDe]

theorem motorPaso_resp_eq (env : MotorEnv) (l : List Regla) :
    ∀ (a : List ResultadoReglaResponse) (b : Nat) (s t : ResultadoStore),
      (l.foldl (motorPaso env) (a, b, s)).1 =
          (l.foldl (motorPaso env) (a, b, t)).1
      ∧ (l.foldl (motorPaso env) (a, b, s)).2.1 =
          (l.foldl (motorPaso env) (a, b, t)).2.1 := by
  induction l with
  | nil => intro a b s t; exact ⟨rfl, rfl⟩
  | cons regla rest ih =>
    intro a b s t
    by_cases hc : env.condiciones regla.id_regla = []
    · simp only [List.foldl_cons, motorPaso, hc, if_true]
      exact ih a b s t
    · simp only [List.foldl_cons, motorPaso, hc, if_false]
      exact ih _ _ _ _

/-- Properties of the engine's store fold starting from a store with
fresh distinct ids and no row for any of the rules' keys: freshness and
id-distinctness are preserved, filters for untouched keys are
unchanged, every evaluated rule ends with exactly its row present, and
running the fold a second time is the identity. -/
theorem motor_run_props (env : MotorEnv) (l : List Regla) :
    ∀ st : ResultadoStore,
      (∀ x ∈ st.rows, x.id_resultado_regla < st.nextId) →
      ((st.rows.map (fun x => x.id_resultado_regla)).Nodup) →
      (∀ regla ∈ l, st.rows.countP
        (claveResultado env.id_evaluacion regla.id_regla) = 0) →
      ((l.map (fun r => r.id_regla)).Nodup) →
      (∀ x ∈ (l.foldl (motorPasoStore env) st).rows,
          x.id_resultado_regla < (l.foldl (motorPasoStore env) st).nextId)
      ∧ (((l.foldl (motorPasoStore env) st).rows.map
          (fun x => x.id_resultado_regla)).Nodup)
      ∧ (∀ e2 rg2 : Nat,
          (∀ regla ∈ l, ¬(e2 = env.id_evaluacion ∧ rg2 = regla.id_regla)) →
          (l.foldl (motorPasoStore env) st).rows.filter
              (claveResultado e2 rg2) =
            st.rows.filter (claveResultado e2 rg2))
      ∧ (∀ regla ∈ l, env.condiciones regla.id_regla ≠ [] →
          ∃ i, (l.foldl (motorPasoStore env) st).rows.filter
              (claveResultado env.id_evaluacion regla.id_regla) =
            [⟨i, env.id_evaluacion, regla.id_regla, flDe env regla, none,
              djDe env regla⟩])
      ∧ l.foldl (motorPasoStore env) (l.foldl (motorPasoStore env) st) =
          l.foldl (motorPasoStore env) st := by
  induction l with
  | nil =>
    intro st hfresh hnodup _ _
    exact ⟨hfresh, hnodup, fun _ _ _ => rfl, by simp, rfl⟩
  | cons regla rest ih =>
    intro st hfresh hnodup hkeys hdist
    have hdist1 : regla.id_regla ∉ rest.map (fun r => r.id_regla) := by
      have := hdist
      rw [List.map_cons, List.nodup_cons] at this
      exact this.1
    have hdist2 : (rest.map (fun r => r.id_regla)).Nodup := by
      have := hdist
      rw [List.map_cons, List.nodup_cons] at this
      exact this.2
    by_cases hc : env.condiciones regla.id_regla = []
    · have hstep : motorPasoStore env st regla = st := by
        simp [motorPasoStore, hc]
      have hrun : (regla :: rest).foldl (motorPasoStore env) st =
          rest.foldl (motorPasoStore env) st := by
        rw [List.foldl_cons, hstep]
      have ihr := ih st hfresh hnodup
        (fun r hr => hkeys r (List.mem_cons_of_mem _ hr)) hdist2
      rw [hrun]
      refine ⟨ihr.1, ihr.2.1, ?_, ?_, ?_⟩
      · intro e2 rg2 hx
        exact ihr.2.2.1 e2 rg2 (fun r hr => hx r (List.mem_cons_of_mem _ hr))
      · intro r hr hcr
        rcases List.mem_cons.mp hr with hr1 | hr1
        · rw [hr1] at hcr
          exact absurd hc hcr
        · exact ihr.2.2.2.1 r hr1 hcr
      · rw [List.foldl_cons]
        have hstep2 : motorPasoStore env
            (rest.foldl (motorPasoStore env) st) regla =
            rest.foldl (motorPasoStore env) st := by
          simp [motorPasoStore, hc]
        rw [hstep2]
        exact ihr.2.2.2.2
    · have hfilst : st.rows.filter
          (claveResultado env.id_evaluacion regla.id_regla) = [] := by
        rw [← List.length_eq_zero, ← List.countP_eq_length_filter]
        exact hkeys regla (List.mem_cons_self _ _)
      have hstep : motorPasoStore env st regla =
          ⟨st.rows ++ [⟨st.nextId, env.id_evaluacion, regla.id_regla,
            flDe env regla, none, djDe env regla⟩], st.nextId + 1⟩ := by
        rw [motorPasoStore, if_neg hc]
        exact guardar_resultado_insert _ _ _ _ _ _ hfilst
      set fila : ResultadoReglaRow :=
        ⟨st.nextId, env.id_evaluacion, regla.id_regla, flDe env regla, none,
          djDe env regla⟩ with hfila
      have hfresh1 : ∀ x ∈ (motorPasoStore env st regla).rows,
          x.id_resultado_regla < (motorPasoStore env st regla).nextId := by
        rw [hstep]
        intro x hx
        rcases List.mem_append.mp hx with hx1 | hx1
        · exact Nat.lt_succ_of_lt (hfresh x hx1)
        · simp at hx1
          rw [hx1]
          exact Nat.lt_succ_self _
      have hnodup1 : ((motorPasoStore env st regla).rows.map
          (fun x => x.id_resultado_regla)).Nodup := by
        rw [hstep]
        simp only [List.map_append, List.map_cons, List.map_nil]
        rw [List.nodup_append]
        refine ⟨hnodup, List.nodup_singleton _, ?_⟩
        intro a ha
        simp only [List.mem_map] at ha
        obtain ⟨x, hx, hxa⟩ := ha
        simp only [List.mem_singleton]
        intro hcon
        rw [hcon] at hxa
        exact absurd (hxa ▸ hfresh x hx) (lt_irrefl _)
      have hkeys1 : ∀ r ∈ rest, (motorPasoStore env st regla).rows.countP
          (claveResultado env.id_evaluacion r.id_regla) = 0 := by
        intro r hr
        rw [hstep]
        simp only [List.countP_append, hkeys r (List.mem_cons_of_mem _ hr)]
        have hne : r.id_regla ≠ regla.id_regla := by
          intro hcon
          exact hdist1 (hcon ▸ List.mem_map_of_mem (fun x => x.id_regla) hr)
        simp [claveResultado, hne.symm]
      have ihr := ih (motorPasoStore env st regla) hfresh1 hnodup1 hkeys1
        hdist2
      have hrun : (regla :: rest).foldl (motorPasoStore env) st =
          rest.foldl (motorPasoStore env) (motorPasoStore env st regla) := by
        rw [List.foldl_cons]
      have hfilrow : (rest.foldl (motorPasoStore env)
            (motorPasoStore env st regla)).rows.filter
          (claveResultado env.id_evaluacion regla.id_regla) = [fila] := by
        rw [ihr.2.2.1 env.id_evaluacion regla.id_regla ?hx]
        case hx =>
          intro r hr hcon
          exact hdist1 (hcon.2 ▸ List.mem_map_of_mem (fun x => x.id_regla) hr)
        rw [hstep]
        rw [List.filter_append, hfilst]
        simp [claveResultado, hfila]
      refine ⟨?_, ?_, ?_, ?_, ?_⟩
      · rw [hrun]; exact ihr.1
      · rw [hrun]; exact ihr.2.1
      · intro e2 rg2 hx
        rw [hrun, ihr.2.2.1 e2 rg2
          (fun r hr => hx r (List.mem_cons_of_mem _ hr)), hstep]
        apply filter_append_single_neg
        have := hx regla (List.mem_cons_self _ _)
        by_cases he : e2 = env.id_evaluacion
        · have hrg : rg2 ≠ regla.id_regla := fun hcon => this ⟨he, hcon⟩
          have hrg2 : regla.id_regla ≠ rg2 := fun hcon => hrg (Eq.symm hcon)
          simp [claveResultado, hfila, hrg2]
        · have he2 : env.id_evaluacion ≠ e2 := fun hcon => he (Eq.symm hcon)
          simp [claveResultado, hfila, he2]
      · intro r hr hcr
        rcases List.mem_cons.mp hr with hr1 | hr1
        · subst hr1
          refine ⟨st.nextId, ?_⟩
          rw [hrun]
          exact hfilrow
        · obtain ⟨i, hi⟩ := ihr.2.2.2.1 r hr1 hcr
          refine ⟨i, ?_⟩
          rw [hrun]
          exact hi
      · rw [hrun, List.foldl_cons]
        have hnoop : motorPasoStore env
            (rest.foldl (motorPasoStore env) (motorPasoStore env st regla))
            regla =
            rest.foldl (motorPasoStore env) (motorPasoStore env st regla) := by
          rw [motorPasoStore, if_neg hc]
          apply guardar_resultado_noop _ _ _ _ _ _ st.nextId hfilrow
          intro x hx hxi
          have hmem : fila ∈ (rest.foldl (motorPasoStore env)
              (motorPasoStore env st regla)).rows := by
            have : fila ∈ (rest.foldl (motorPasoStore env)
                (motorPasoStore env st regla)).rows.filter
                (claveResultado env.id_evaluacion regla.id_regla) := by
              rw [hfilrow]
              exact List.mem_singleton_self _
            exact List.mem_of_mem_filter this
          refine nodup_map_inj ihr.2.1 hx hmem ?_
          show x.id_resultado_regla = fila.id_resultado_regla
          rw [hxi, hfila]
        rw [hnoop]
        exact ihr.2.2.2.2

/-- C7: starting from stores holding no row for the respective keys,
running `calcular_score_especifico` twice with unchanged inputs returns
the same response both times and the second run leaves the store
exactly as the first left it, with exactly one ScoreCapDim row for the
(evaluation, capability, dimension) key; likewise running
`ejecutar_motor_reglas` twice with unchanged inputs returns the same
summary and the same store (the second run updates every RuleResult in
place), leaving exactly one RuleResult row per evaluated
(evaluation, rule) key. -/
theorem upsert_idempotente (env : ScoreEnv) (cap dim : Nat)
    (st : ScoreStore) (acc : ℚ × ℚ × List RespuestaProcesada)
    (hok : calcular_nucleo env cap dim = .ok acc)
    (hkey : st.rows.countP (claveScore env.id_evaluacion cap dim) = 0)
    (hfresh : ∀ r ∈ st.rows, r.id_score < st.nextId)
    (envM : MotorEnv) (stM : ResultadoStore) (vm : Nat)
    (resp : MotorResultadoResponse) (stM1 : ResultadoStore)
    (hv0 : envM.id_version = some vm) (hvnz : vm ≠ 0)
    (hsc : envM.scores ≠ [])
    (hkeysM : ∀ regla ∈ envM.reglas,
      stM.rows.countP (claveResultado envM.id_evaluacion regla.id_regla) = 0)
    (hfreshM : ∀ x ∈ stM.rows, x.id_resultado_regla < stM.nextId)
    (hnodupM : (stM.rows.map (fun x => x.id_resultado_regla)).Nodup)
    (hdistM : (envM.reglas.map (fun r => r.id_regla)).Nodup)
    (hrun : ejecutar_motor_reglas envM stM = .ok (resp, stM1)) :
    (calcular_score_especifico env cap dim
        ((calcular_score_especifico env cap dim st).2)).1 =
      (calcular_score_especifico env cap dim st).1
    ∧ (calcular_score_especifico env cap dim
        ((calcular_score_especifico env cap dim st).2)).2 =
      (calcular_score_especifico env cap dim st).2
    ∧ ((calcular_score_especifico env cap dim st).2).rows.countP
        (claveScore env.id_evaluacion cap dim) = 1
    ∧ ejecutar_motor_reglas envM stM1 = .ok (resp, stM1)
    ∧ (∀ regla ∈ envM.reglas, envM.condiciones regla.id_regla ≠ [] →
        stM1.rows.countP
          (claveResultado envM.id_evaluacion regla.id_regla) = 1) := by
  obtain ⟨num, den, procs⟩ := acc
  have hst : (calcular_score_especifico env cap dim st).2 =
      guardar_score env.id_evaluacion cap dim (num / den) st := by
    simp [calcular_score_especifico, hok]
  have hg := guardar_score_upsert env.id_evaluacion cap dim (num / den) st
    hkey hfresh
  refine ⟨?_, ?_, ?_, ?_, ?_⟩
  · simp [calcular_score_especifico, hok]
  · rw [hst]
    simp only [calcular_score_especifico, hok]
    exact hg.2.2
  · rw [hst]
    exact hg.2.1
  · by_cases hreg : envM.reglas = []
    · simp only [ejecutar_motor_reglas, hv0, hvnz, if_false, hsc, hreg,
        if_true, Except.ok.injEq, Prod.mk.injEq] at hrun ⊢
      exact ⟨hrun.1, trivial⟩
    · have hprops := motor_run_props envM envM.reglas stM hfreshM hnodupM
        hkeysM hdistM
      simp only [ejecutar_motor_reglas, hv0, hvnz, if_false, hsc, hreg,
        Except.ok.injEq, Prod.mk.injEq] at hrun ⊢
      obtain ⟨hresp, hstM1⟩ := hrun
      have htie : (envM.reglas.foldl (motorPaso envM) ([], 0, stM)).2.2 =
          envM.reglas.foldl (motorPasoStore envM) stM :=
        motorPaso_store_eq envM envM.reglas [] 0 stM
      have htie1 : (envM.reglas.foldl (motorPaso envM) ([], 0, stM1)).2.2 =
          envM.reglas.foldl (motorPasoStore envM) stM1 :=
        motorPaso_store_eq envM envM.reglas [] 0 stM1
      have hre := motorPaso_resp_eq envM envM.reglas [] 0 stM1 stM
      have hs1 : stM1 = envM.reglas.foldl (motorPasoStore envM) stM := by
        rw [← hstM1, htie]
      refine ⟨?_, ?_⟩
      · rw [hre.1, hre.2]
        exact hresp
      · rw [htie1, hs1]
        exact hprops.2.2.2.2
  · intro regla hregla hcond
    have hprops := motor_run_props envM envM.reglas stM hfreshM hnodupM
      hkeysM hdistM
    obtain ⟨i, hi⟩ := hprops.2.2.2.1 regla hregla hcond
    have hreg : envM.reglas ≠ [] := by
      intro hcon
      rw [hcon] at hregla
      cases hregla
    have hstM1 : stM1 = envM.reglas.foldl (motorPasoStore envM) stM := by
      simp only [ejecutar_motor_reglas, hv0, hvnz, if_false, hsc, hreg,
        Except.ok.injEq, Prod.mk.injEq] at hrun
      rw [← hrun.2]
      exact motorPaso_store_eq envM envM.reglas [] 0 stM
    rw [hstM1, List.countP_eq_length_filter, hi]
    rfl

/-- C7 witness: the single-answer environment on an empty score store,
and the one-rule engine environment on an empty result store. -/
theorem upsert_idempotente_witness :
    (calcular_score_especifico envUno 1 1
        ((calcular_score_especifico envUno 1 1 ⟨[], 1⟩).2)).2 =
      (calcular_score_especifico envUno 1 1 ⟨[], 1⟩).2
    ∧ ((calcular_score_especifico envUno 1 1 ⟨[], 1⟩).2).rows.countP
        (claveScore 7 1 1) = 1
    ∧ ejecutar_motor_reglas envMotorUno stM1Noop = .ok (respNoop, stM1Noop)
    ∧ stM1Noop.rows.countP (claveResultado 7 3) = 1 := by
  have hok : calcular_nucleo envUno 1 1 =
      .ok (8, 1, [⟨5, r"Q1", 8, 1, 8⟩]) := by
    have hne : envUno.respuestas.filter (fun r => r.links) ≠ [] := by
      simp [envUno]
    have hres := calcular_nucleo_eq envUno 1 1 1 rfl (by decide) hne
    have hsp : sumaPesos envUno 1 1 1 = 1 := by
      norm_num [sumaPesos, respuestasCoinciden, envUno, coincide, pesoDe,
        pesoEfectivo]
    have hsv : sumaValores envUno 1 1 1 = 8 := by
      norm_num [sumaValores, respuestasCoinciden, envUno, coincide, pesoDe,
        pesoEfectivo]
    rw [hres, hsp, hsv]
    norm_num [respuestasCoinciden, envUno, coincide, procesadaDe,
      pesoEfectivo]
  have h := upsert_idempotente envUno 1 1 ⟨[], 1⟩ (8, 1, [⟨5, r"Q1", 8, 1, 8⟩])
    hok rfl (by simp) envMotorUno ⟨[], 1⟩ 1 respNoop stM1Noop rfl (by decide)
    (by simp [envMotorUno, scoresEjemplo]) (by simp) (by simp) (by simp)
    (by simp [envMotorUno, reglaUno]) rfl
  refine ⟨h.2.1, h.2.2.1, h.2.2.2.1, ?_⟩
  exact h.2.2.2.2 reglaUno (by simp [envMotorUno]) (by simp [envMotorUno])

/-- C9: the bulk computation does NOT abort on a ConfigurationError —
an evaluation with no methodology version produces a per-pair
HTTP-400 error which the batch records as a skipped entry and
continues, returning a success summary with zero computed scores; the
second conjunct shows the single-pair call does raise the
missing-version error. -/
theorem version_faltante_no_aborta :
    calcular_todos_scores [⟨1, r"C01"⟩] [⟨1, r"D01"⟩] envSinVersion ⟨[], 1⟩ =
      .ok (⟨7, 0, []⟩, [⟨r"C01", r"D01", msgSinVersion⟩], ⟨[], 1⟩)
    ∧ (calcular_score_especifico envSinVersion 1 1 ⟨[], 1⟩).1 =
        .error ⟨400, msgSinVersion⟩ := by
  constructor
  · rfl
  · rfl

end MetaBridge
